import Mathlib

/-!
Verification of jonjohnsonjr/trot: a single-pass converter from a stream of
OpenTelemetry-shaped span records to a nested-timeline HTML document.

The repository holds two variants of the program:
  * `src/unnamed/part_000` — the variant with record-ordinal decode errors,
    missing-parent diagnostics, synthetic "Missing span" roots and
    zero-duration-span normalization.  Modelled below as `Trot.mainE`,
    `Trot.buildTree`, `Trot.writeSpan`.
  * `src/main.go` — the variant that fails on "no root", panics on multiple
    root spans, attaches no ordinal to decode errors and has no
    normalization.  Modelled below as `Trot.mainEV0`, `Trot.buildTreeV0`,
    `Trot.writeSpanV0`.

Modelling conventions:
  * `time.Time` values are modelled as `Int` nanoseconds; `time.Time.Sub`
    (a `time.Duration`, int64 nanoseconds) is modelled as exact integer
    subtraction (the library's saturation at ±2^63-1 ns, reachable only for
    time ranges of about 292 years, is not modelled).
  * `float64` division is modelled exactly over `ℚ`, plus the IEEE special
    values NaN/±Inf produced on division by zero (`Trot.GoFloat`); the
    rounding of int64→float64 conversion and of float division is not
    modelled (the spec states its margin arithmetic claims only up to
    floating-point tolerance).
  * Go maps are modelled as association lists in first-insertion key order;
    Go's randomized map iteration order is unspecified, so every theorem
    below that depends on an iteration order either uses a single-key map
    (where all orders coincide) or states an order-insensitive property.
-/

set_option maxRecDepth 20000

deriving instance DecidableEq for Except

namespace Trot

/-- Model of the `Span` record (src/unnamed/part_000 §type Span).  Only the
fields the program reads are modelled: `Name`, `SpanContext.SpanID`
(flattened to `spanID`), `Parent.SpanID` (flattened to `parentID`),
`StartTime` and `EndTime` (as `Int` nanoseconds).  The remaining decoded
metadata (trace ids, attributes, events, status, resource, …) is carried by
the Go struct but never read by `mainE`, `buildTree` or `writeSpan`, so it
is omitted from the model. -/
structure Span where
  name : String
  spanID : String
  parentID : String
  startTime : Int
  endTime : Int
  deriving Repr, DecidableEq

/-- Model of `type Node struct { Span *Span; Children []*Node }`. -/
inductive Node where
  | mk (span : Span) (children : List Node) : Node
  deriving Repr

def Node.span : Node → Span
  | .mk s _ => s

def Node.children : Node → List Node
  | .mk _ c => c

/-- Association-list lookup, modelling Go map indexing `m[k]` with its
`ok` flag as `Option`. -/
def lookupA {α : Type} : List (String × α) → String → Option α
  | [], _ => none
  | (k, v) :: rest, key => if k = key then some v else lookupA rest key

/-- `spans` index: `map[string]*Span` keyed by `span.SpanContext.SpanID`;
a duplicate id overwrites the earlier entry (Go map assignment). -/
def SpanIndex := List (String × Span)

/-- `children` index: `map[string][]*Span` keyed by `span.Parent.SpanID`,
each list in input arrival order (Go `append`). -/
def ChildrenIndex := List (String × List Span)

/-- Go `spans[k] = v`: overwrite in place if the key exists, else add it. -/
def insertSpan : SpanIndex → String → Span → SpanIndex
  | [], k, v => [(k, v)]
  | (k', v') :: rest, k, v =>
      if k' = k then (k', v) :: rest else (k', v') :: insertSpan rest k v

/-- Go `children[k] = append(children[k], v)`, preserving arrival order. -/
def appendChild : ChildrenIndex → String → Span → ChildrenIndex
  | [], k, v => [(k, [v])]
  | (k', l) :: rest, k, v =>
      if k' = k then (k', l ++ [v]) :: rest else (k', l) :: appendChild rest k v

/-- The comparison relation used by `slices.SortFunc(root.Children, …)`:
`a.Span.StartTime.Compare(b.Span.StartTime)` orders nodes by start time. -/
def leStart (a b : Node) : Prop := a.span.startTime ≤ b.span.startTime

instance : DecidableRel leStart := fun _ _ => Int.decLe _ _

instance : IsTotal Node leStart := ⟨fun _ _ => Int.le_total _ _⟩

instance : IsTrans Node leStart := ⟨fun _ _ _ h h' => le_trans h h'⟩

/-- Model of `slices.SortFunc(root.Children, func(a, b *Node) int {
return a.Span.StartTime.Compare(b.Span.StartTime) })`
(golang.org/x/exp/slices).  For slices of at most 12 elements the library
runs exactly the insertion sort modelled here; for longer slices it runs
pdqsort, which also sorts ascending by the comparison but is documented as
not guaranteed stable, so for those inputs this function fixes one of the
sorted orders the library may produce (the library's full guarantee is the
relation `SortFuncContract` below). -/
def sortNodes (l : List Node) : List Node := List.insertionSort leStart l

/-- Model of `slices.MaxFunc(root.Children, func(a, b *Node) int {
return a.Span.EndTime.Compare(b.Span.EndTime) })`: scans left to right and
keeps the first maximal element. -/
def goMaxFuncAux : Node → List Node → Node
  | m, [] => m
  | m, x :: xs => goMaxFuncAux (if m.span.endTime < x.span.endTime then x else m) xs

/-- The zero-duration normalization step of `buildTree`
(src/unnamed/part_000:125-132): if the current span's `StartTime` equals its
`EndTime`, replace them by the first sorted child's start time and the
`slices.MaxFunc` child's end time.  Go indexes `root.Children[0]` and calls
`MaxFunc`, both of which panic on an empty children slice; every list stored
in a `ChildrenIndex` built by `mainE` is non-empty, so that branch is
unreachable there and the model returns the span unchanged. -/
def normalizeSpan (s : Span) (sorted : List Node) : Span :=
  if s.startTime = s.endTime then
    match sorted with
    | [] => s
    | n0 :: rest =>
        { s with startTime := n0.span.startTime
                 endTime := (goMaxFuncAux n0 rest).span.endTime }
  else s

/-- Model of `buildTree` (src/unnamed/part_000:106-133).  The Go function
recurses along `children` with no cycle guard and diverges on cyclic input;
the model makes that explicit with a fuel argument: with fuel `0` the
recursion is cut off (returning the node as a leaf), and `okFuelB` below
characterizes when the fuel suffices for the Go recursion to terminate.
The unused `spans` parameter of the Go function is dropped. -/
def buildTree : Nat → ChildrenIndex → Span → Node
  | 0, _, s => .mk s []
  | fuel + 1, c, s =>
      match lookupA c s.spanID with
      | none => .mk s []
      | some kids =>
          let ns := kids.map (fun k => buildTree fuel c k)
          let sorted := sortNodes ns
          .mk (normalizeSpan s sorted) sorted

/-- `okFuelB fuel c s` holds when `buildTree`'s recursion from `s` completes
before the fuel runs out, i.e. the fuel bound never cuts off the Go
recursion. -/
def okFuelB : Nat → ChildrenIndex → Span → Bool
  | 0, _, _ => false
  | fuel + 1, c, s =>
      match lookupA c s.spanID with
      | none => true
      | some kids => kids.all (fun k => okFuelB fuel c k)

/-- Model of `buildTree` from src/main.go:68-86: identical except that it has
no zero-duration normalization step. -/
def buildTreeV0 : Nat → ChildrenIndex → Span → Node
  | 0, _, s => .mk s []
  | fuel + 1, c, s =>
      match lookupA c s.spanID with
      | none => .mk s []
      | some kids => .mk s (sortNodes (kids.map (fun k => buildTreeV0 fuel c k)))

/-! ### float64 division and `%f` formatting

`writeSpan` computes `float64(left) / float64(total)`.  `GoFloat` models the
outcome of that division exactly over `ℚ`, together with the IEEE special
values produced when `total` is zero: `0/0 = NaN`, `x/0 = ±Inf`. -/

inductive GoFloat where
  | val (num den : Int)
  | nan
  | inf
  | ninf
  deriving DecidableEq

/-- The rational number a finite `GoFloat` denotes (used only in theorem
statements; all computation stays on the integer pair, since the division
is exact over ℚ). -/
def GoFloat.toQ : GoFloat → Option ℚ
  | .val a b => some ((a : ℚ) / (b : ℚ))
  | _ => none

/-- Go `float64(a) / float64(b)` on exact integer inputs: the exact
quotient when `b ≠ 0`, and the IEEE special values on division by zero. -/
def goDivF (a b : Int) : GoFloat :=
  if b = 0 then (if a = 0 then .nan else if 0 < a then .inf else .ninf)
  else .val a b

/-- Go `100.0 * f`: scales a finite value, fixes NaN and ±Inf. -/
def GoFloat.scale100 : GoFloat → GoFloat
  | .val a b => .val (100 * a) b
  | .nan => .nan
  | .inf => .inf
  | .ninf => .ninf

/-- Left-pad a decimal string with zeros to the given width. -/
def zeroPad (width : Nat) (s : String) : String :=
  if width ≤ s.length then s
  else String.mk (List.replicate (width - s.length) '0') ++ s

/-- Fixed-point rendering of the exact quotient `a / b` with 6 fractional
digits, rounding to nearest (ties away from zero): the value part of Go's
`%f` verb.  Decimal rounding of the exact quotient stands in for the binary
rounding of `strconv.FormatFloat`; the two agree on every value appearing
in the theorems below (all are exactly representable with 6 decimal
digits).  `b = 0` never reaches this function (`goDivF` yields a special
value instead). -/
def fmtFixed6Pair (a b : Int) : String :=
  let n := a.natAbs
  let d := b.natAbs
  let scaled := (2 * n * 1000000 + d) / (2 * d)
  let core := toString (scaled / 1000000) ++ "." ++ zeroPad 6 (toString (scaled % 1000000))
  if a ≠ 0 ∧ ((a < 0) ≠ (b < 0)) then "-" ++ core else core

/-- Go `fmt`'s `%f` verb on a float64: fixed 6 decimals, or the literal
spellings of the special values. -/
def goFmtF : GoFloat → String
  | .val a b => fmtFixed6Pair a b
  | .nan => "NaN"
  | .inf => "+Inf"
  | .ninf => "-Inf"

/-- The two pad ratios computed by `writeSpan`
(src/unnamed/part_000:139-144): `leftpad = float64(node.StartTime −
parent.StartTime) / float64(total)` and `rightpad = float64(parent.EndTime −
node.EndTime) / float64(total)` where `total = parent.EndTime −
parent.StartTime`. -/
def margins (parent node : Node) : GoFloat × GoFloat :=
  let total := parent.span.endTime - parent.span.startTime
  (goDivF (node.span.startTime - parent.span.startTime) total,
   goDivF (parent.span.endTime - node.span.endTime) total)

/-! ### `time.Duration.String` -/

/-- Model of the fraction step of `time.Duration.String` (Go stdlib
`fmtFrac`): formats the low `prec` decimal digits of `v` as a fraction
without trailing zeros (and without the decimal point when they are all
zero), returning the fraction string and `v` shifted right by `prec`
digits. -/
def fmtFracAux : Nat → Nat → String → Bool → String × Nat
  | 0, v, acc, pr => ((if pr then "." ++ acc else acc), v)
  | prec + 1, v, acc, pr =>
      let digit := v % 10
      let pr' := pr || decide (digit ≠ 0)
      fmtFracAux prec (v / 10) (if pr' then toString digit ++ acc else acc) pr'

def fmtFrac (v : Nat) (prec : Nat) : String × Nat := fmtFracAux prec v "" false

/-- Model of `time.Duration.String` for a duration of `d` nanoseconds:
"0s", "123ns", "1.5µs", "12.3ms", then "1m40.5s" etc. above one second. -/
def goDurString (d : Int) : String :=
  let u : Nat := d.natAbs
  let s :=
    if u < 1000000000 then
      if u = 0 then "0s"
      else if u < 1000 then toString u ++ "ns"
      else if u < 1000000 then
        let fv := fmtFrac u 3
        toString fv.2 ++ fv.1 ++ "µs"
      else
        let fv := fmtFrac u 6
        toString fv.2 ++ fv.1 ++ "ms"
    else
      let fv := fmtFrac u 9
      let secPart := toString (fv.2 % 60) ++ fv.1 ++ "s"
      let u2 := fv.2 / 60
      if u2 = 0 then secPart
      else
        let minPart := toString (u2 % 60) ++ "m" ++ secPart
        let u3 := u2 / 60
        if u3 = 0 then minPart else toString u3 ++ "h" ++ minPart
  if d < 0 then "-" ++ s else s

/-! ### the renderer -/

mutual
/-- Model of `writeSpan` (src/unnamed/part_000:135-170).  With no parent it
opens a plain `<div>`; otherwise it opens a `<div>` whose margin style
carries the two pad ratios scaled to percentages through `%f` (the
`class="parent"` variant when the node has children).  Leaves render as a
`<span>` label, internal nodes as a `<details>` disclosure (`open` only for
the parentless top-level call), and `Fprintln` closes each `</div>` with a
newline. -/
def writeSpan (parent : Option Node) : Node → String
  | .mk s ch =>
      let openTag :=
        match parent with
        | none => "<div>"
        | some p =>
            let m := margins p (.mk s ch)
            let style := "margin: 1px " ++ goFmtF m.2.scale100 ++ "% 0 " ++
              goFmtF m.1.scale100 ++ "%"
            if ch.isEmpty then "<div style=\"" ++ style ++ "\">"
            else "<div class=\"parent\" style=\"" ++ style ++ "\">"
      let dur := goDurString (s.endTime - s.startTime)
      let body :=
        match ch with
        | [] => "<span>" ++ s.name ++ " " ++ dur ++ "</span>"
        | _ :: _ =>
            (match parent with
             | none => "<details open><summary>" ++ s.name ++ " " ++ dur ++ "</summary>"
             | some _ => "<details><summary>" ++ s.name ++ " " ++ dur ++ "</summary>") ++
            writeSpans (.mk s ch) ch ++ "</details>"
      openTag ++ body ++ "</div>\n"

def writeSpans (p : Node) : List Node → String
  | [] => ""
  | c :: cs => writeSpan (some p) c ++ writeSpans p cs
end

mutual
/-- Model of `writeSpan` from src/main.go:88-118: identical to `writeSpan`
except that the top-level `<details>` element carries no `open`
attribute. -/
def writeSpanV0 (parent : Option Node) : Node → String
  | .mk s ch =>
      let openTag :=
        match parent with
        | none => "<div>"
        | some p =>
            let m := margins p (.mk s ch)
            let style := "margin: 1px " ++ goFmtF m.2.scale100 ++ "% 0 " ++
              goFmtF m.1.scale100 ++ "%"
            if ch.isEmpty then "<div style=\"" ++ style ++ "\">"
            else "<div class=\"parent\" style=\"" ++ style ++ "\">"
      let dur := goDurString (s.endTime - s.startTime)
      let body :=
        match ch with
        | [] => "<span>" ++ s.name ++ " " ++ dur ++ "</span>"
        | _ :: _ =>
            "<details><summary>" ++ s.name ++ " " ++ dur ++ "</summary>" ++
            writeSpansV0 (.mk s ch) ch ++ "</details>"
      openTag ++ body ++ "</div>\n"

def writeSpansV0 (p : Node) : List Node → String
  | [] => ""
  | c :: cs => writeSpanV0 (some p) c ++ writeSpansV0 p cs
end

/-- The static head/style preamble (`const header`, identical text in both
variants); literal braces appear as `\x7b`/`\x7d`. -/
def header : String :=
  "\n<html>\n<head>\n<title>trot</title>\n<style>\nsummary \x7b\n  border: 1px solid;\n  display: block;\n  white-space: nowrap;\n  padding: 3px;\n\x7d\nspan \x7b\n  border: 1px solid;\n  display: block;\n  white-space: nowrap;\n  padding: 3px;\n\x7d\nbody \x7b\n\twidth: 100%;\n\tmargin: 0px;\n\x7d\ndiv.parent:hover \x7b\n\toutline: 1.5px solid lightgrey;\n\x7d\n</style>\n</head>\n<body>"

/-- The static closing tail (`const footer`, identical in both variants). -/
def footer : String := "\n    </body>\n</html>\n"

/-! ### the decode loop and `mainE` -/

/-- The sentinel all-zero root id (`children["0000000000000000"]`). -/
def rootID : String := "0000000000000000"

/-- The synthetic root span built by src/unnamed/part_000:83-90:
`Span{Name: "root", SpanContext: SpanContext{SpanID: rootID}}`; all other
fields are Go zero values. -/
def rootSpanV : Span :=
  { name := "root", spanID := rootID, parentID := "", startTime := 0, endTime := 0 }

/-- The synthetic placeholder span built per missing parent id by
src/unnamed/part_000:66-73: `Span{Name: "Missing span",
SpanContext: SpanContext{SpanID: missed}}`. -/
def missingSpan (m : String) : Span :=
  { name := "Missing span", spanID := m, parentID := "", startTime := 0, endTime := 0 }

/-- The input stream as the decoder sees it: the sequence of outcomes of
`dec.Decode(&span)`, one per record — either a decoded `Span` or the parse
failure's message.  `io.EOF` is the end of the list. -/
def RawInput := List (Except String Span)

/-- The decode loop of src/unnamed/part_000:25-47: counts records from 1,
indexes each decoded span by id and under its parent id, and aborts on the
first malformed record with `fmt.Errorf("line %d: %w", i, err)`. -/
def decodeFrom : Nat → SpanIndex → ChildrenIndex → RawInput →
    Except String (SpanIndex × ChildrenIndex)
  | _, sp, ch, [] => .ok (sp, ch)
  | i, _, _, .error e :: _ => .error ("line " ++ toString i ++ ": " ++ e)
  | i, sp, ch, .ok s :: rest =>
      decodeFrom (i + 1) (insertSpan sp s.spanID s) (appendChild ch s.parentID s) rest

/-- The decode loop of src/main.go:26-44: identical indexing, but the parse
failure is returned unchanged (no record ordinal). -/
def decodeFromV0 : SpanIndex → ChildrenIndex → RawInput →
    Except String (SpanIndex × ChildrenIndex)
  | sp, ch, [] => .ok (sp, ch)
  | _, _, .error e :: _ => .error e
  | sp, ch, .ok s :: rest =>
      decodeFromV0 (insertSpan sp s.spanID s) (appendChild ch s.parentID s) rest

/-- The `missing` set of src/unnamed/part_000:49-55: parent ids that key the
children index but have no span record, in first-insertion key order (Go
iterates the map in unspecified order; theorems below never depend on the
order of this list, only on membership, except where it has at most one
element). -/
def missingIds (sp : SpanIndex) (ch : ChildrenIndex) : List String :=
  (ch.map Prod.fst).filter (fun k => (lookupA sp k).isNone)

/-- Sequential concatenation of written chunks (Go writes to `w` one call
after the other). -/
def strConcat : List String → String
  | [] => ""
  | s :: rest => s ++ strConcat rest

/-- The orphan section written by the no-root branch
(src/unnamed/part_000:65-78): one synthetic "Missing span" tree rendered per
missing id, before anything else is written. -/
def orphanBlock (fuel : Nat) (sp : SpanIndex) (ch : ChildrenIndex) : String :=
  strConcat ((missingIds sp ch).map
    (fun m => writeSpan none (buildTree fuel ch (missingSpan m))))

/-- The top-level container render: part_000 always builds the tree from the
synthetic root span (its pre-populated children are overwritten by
`buildTree` when the sentinel key exists, and stay empty otherwise). -/
def renderRoot (fuel : Nat) (ch : ChildrenIndex) : String :=
  writeSpan none (buildTree fuel ch rootSpanV)

/-- Result of a run of part_000's `mainE`: everything written to `w`, the
diagnostics written through `log.Printf`, and the returned error. -/
structure MainRes where
  output : String
  logs : List String
  res : Except String Unit

/-- Model of `mainE` (src/unnamed/part_000:21-104).  Decoding happens fully
before any output; on decode failure the run aborts with nothing written.
Missing parent ids are logged; when no span claims the sentinel root id, the
run logs "no root" and writes the synthetic orphan trees, and in every
non-error case it then writes the header, the top-level container and the
footer.  The fuel `input.length + 2` exceeds the depth of any acyclic parent
chain; on cyclic input the Go program diverges where this model cuts off. -/
def mainE (input : RawInput) : MainRes :=
  match decodeFrom 1 [] [] input with
  | .error e => { output := "", logs := [], res := .error e }
  | .ok (sp, ch) =>
      let fuel := input.length + 2
      let mlogs := (missingIds sp ch).map (fun m => "missing \"" ++ m ++ "\"")
      match lookupA ch rootID with
      | none =>
          { output := orphanBlock fuel sp ch ++ header ++ renderRoot fuel ch ++ footer
            logs := mlogs ++ ["no root"]
            res := .ok () }
      | some _ =>
          { output := header ++ renderRoot fuel ch ++ footer
            logs := mlogs
            res := .ok () }

/-- How a run of src/main.go's `mainE` ends: a returned error, or the panic
thrown when the sentinel root id has other than exactly one child span. -/
inductive V0Err where
  | goError (msg : String)
  | goPanic (msg : String)
  deriving DecidableEq

structure V0Res where
  output : String
  res : Except V0Err Unit

/-- Model of `mainE` from src/main.go:21-66: aborts with the bare parse
error on a malformed record, returns the error "no root" when no span
claims the sentinel root id, panics unless there is exactly one root span,
and otherwise writes header, the root span's tree and footer (it logs
nothing). -/
def mainEV0 (input : RawInput) : V0Res :=
  match decodeFromV0 [] [] input with
  | .error e => { output := "", res := .error (.goError e) }
  | .ok (_, ch) =>
      match lookupA ch rootID with
      | none => { output := "", res := .error (.goError "no root") }
      | some [r] =>
          { output := header ++ writeSpanV0 none (buildTreeV0 (input.length + 2) ch r) ++ footer
            res := .ok () }
      | some rs =>
          { output := "", res := .error (.goPanic (toString rs.length ++ " root spans")) }

/-! ### substring occurrence -/

/-- `startsWithL pat l`: `pat` is a prefix of `l`. -/
def startsWithL : List Char → List Char → Bool
  | [], _ => true
  | _ :: _, [] => false
  | p :: ps, c :: cs => p = c && startsWithL ps cs

/-- `hasSubL pat l`: `pat` occurs contiguously somewhere in `l`. -/
def hasSubL : List Char → List Char → Bool
  | pat, [] => startsWithL pat []
  | pat, c :: cs => startsWithL pat (c :: cs) || hasSubL pat cs

/-- `strHasSub s pat`: the string `pat` occurs contiguously in `s`. -/
def strHasSub (s pat : String) : Bool := hasSubL pat.data s.data

/-- `strStarts s pat`: the string `s` begins with `pat`. -/
def strStarts (s pat : String) : Bool := startsWithL pat.data s.data

/-! ### spec-side vocabulary

Definitions taken from the claims' wording (not from the source), used to
state what the source-derived definitions are compared against. -/

/-- The minimum `startTime` over a list of nodes (the spec's "minimum
`startTime` across its children"); `0` for the empty list, which never
arises in its uses below. -/
def minStarts : List Node → Int
  | [] => 0
  | n :: ns => ns.foldl (fun a m => min a m.span.startTime) n.span.startTime

/-- The maximum `endTime` over a list of nodes (the spec's "maximum
`endTime` across its children"). -/
def maxEnds : List Node → Int
  | [] => 0
  | n :: ns => ns.foldl (fun a m => max a m.span.endTime) n.span.endTime

/-! ### basic lemmas -/

theorem dataAppend (a b : String) : (a ++ b).data = a.data ++ b.data := by
  cases a; cases b; rfl

theorem startsWithL_append (pat r : List Char) : startsWithL pat (pat ++ r) = true := by
  induction pat with
  | nil => rfl
  | cons p ps ih => simp [startsWithL, ih]

theorem hasSubL_append (x pat r : List Char) : hasSubL pat (x ++ (pat ++ r)) = true := by
  induction x with
  | nil =>
      cases pat with
      | nil =>
          cases r with
          | nil => rfl
          | cons c cs => simp [hasSubL, startsWithL]
      | cons p ps =>
          have h := startsWithL_append (p :: ps) r
          simp only [List.cons_append, List.nil_append] at h ⊢
          simp [hasSubL, h]
  | cons c cs ih => simp [hasSubL, ih]

/-- A string visibly containing `pat` as a middle factor passes
`strHasSub`. -/
theorem strHasSub_of_decomp (l pat r : String) : strHasSub (l ++ pat ++ r) pat = true := by
  unfold strHasSub
  rw [dataAppend, dataAppend, List.append_assoc]
  exact hasSubL_append l.data pat.data r.data

theorem sortNodes_sorted (l : List Node) : List.Pairwise leStart (sortNodes l) :=
  List.sorted_insertionSort leStart l

theorem sortNodes_perm (l : List Node) : (sortNodes l).Perm l :=
  List.perm_insertionSort leStart l

theorem foldl_min_const (ns : List Node) :
    ∀ a : Int, (∀ m ∈ ns, a ≤ m.span.startTime) →
      ns.foldl (fun a m => min a m.span.startTime) a = a := by
  induction ns with
  | nil => intro a _; rfl
  | cons x xs ih =>
      intro a h
      simp only [List.foldl]
      rw [min_eq_left (h x (by simp))]
      exact ih a (fun m hm => h m (by simp [hm]))

/-- The head of a start-sorted non-empty list of nodes realizes the minimum
start time of the list. -/
theorem minStarts_of_sorted (n : Node) (ns : List Node)
    (h : List.Pairwise leStart (n :: ns)) : minStarts (n :: ns) = n.span.startTime :=
  foldl_min_const ns _ (List.pairwise_cons.mp h).1

theorem goMaxAux_end (ns : List Node) :
    ∀ m : Node, (goMaxFuncAux m ns).span.endTime =
      ns.foldl (fun a x => max a x.span.endTime) m.span.endTime := by
  induction ns with
  | nil => intro m; rfl
  | cons x xs ih =>
      intro m
      simp only [goMaxFuncAux, List.foldl]
      rw [ih]
      congr 1
      rcases lt_or_ge m.span.endTime x.span.endTime with h | h
      · rw [if_pos h, max_eq_right h.le]
      · rw [if_neg (not_lt.mpr h), max_eq_left h]

/-- `slices.MaxFunc` by end time computes the maximum end time. -/
theorem maxEnds_goMax (n : Node) (ns : List Node) :
    maxEnds (n :: ns) = (goMaxFuncAux n ns).span.endTime :=
  (goMaxAux_end ns n).symm

/-! ### concrete inputs used by the scenario claims -/

/-- Scenario record `{id:"a", parent:sentinel, start:0, end:100, name:"root-op"}`. -/
def spanRootOp : Span :=
  { name := "root-op", spanID := "a", parentID := rootID, startTime := 0, endTime := 100 }

/-- Scenario record `{id:"b", parent:"a", start:10, end:40, name:"child-op"}`. -/
def spanChildOp : Span :=
  { name := "child-op", spanID := "b", parentID := "a", startTime := 10, endTime := 40 }

/-- The two-span scenario input stream. -/
def scenarioC1 : RawInput := [.ok spanRootOp, .ok spanChildOp]

/-- C2's example: a zero-duration grouping span. -/
def exP2 : Span :=
  { name := "g", spanID := "g", parentID := rootID, startTime := 7, endTime := 7 }

/-- C2's example children: spans covering `[10,20]` and `[15,30]`. -/
def exKids2 : List Span :=
  [{ name := "u", spanID := "u", parentID := "g", startTime := 10, endTime := 20 },
   { name := "v", spanID := "v", parentID := "g", startTime := 15, endTime := 30 }]

def exC2 : ChildrenIndex := [("g", exKids2)]

/-- C1: for a rendered node with a parent of non-degenerate time range, the
emitted left margin percentage is `100 * (node.startTime − parent.startTime)
/ (parent.endTime − parent.startTime)` and the emitted right margin
percentage is `100 * (parent.endTime − node.endTime) / (parent.endTime −
parent.startTime)`; the two margins and the node's scaled share of the
parent's duration sum to exactly 100 percent; and on the two-span scenario
input the output nests, inside the disclosure element for "root-op"
(duration 100ns), a leaf for "child-op" with left margin 10% and right
margin 60%. -/
theorem claim_C1 (p n : Node) (hdur : p.span.endTime ≠ p.span.startTime) :
    (((margins p n).1.scale100).toQ =
        some (100 * ((n.span.startTime - p.span.startTime : Int) : ℚ) /
          ((p.span.endTime - p.span.startTime : Int) : ℚ)) ∧
      ((margins p n).2.scale100).toQ =
        some (100 * ((p.span.endTime - n.span.endTime : Int) : ℚ) /
          ((p.span.endTime - p.span.startTime : Int) : ℚ)) ∧
      100 * ((n.span.startTime - p.span.startTime : Int) : ℚ) /
          ((p.span.endTime - p.span.startTime : Int) : ℚ) +
        100 * ((p.span.endTime - n.span.endTime : Int) : ℚ) /
          ((p.span.endTime - p.span.startTime : Int) : ℚ) +
        100 * (((n.span.endTime - n.span.startTime : Int) : ℚ) /
          ((p.span.endTime - p.span.startTime : Int) : ℚ)) = 100) ∧
    ((mainE scenarioC1).res = .ok () ∧
      strHasSub (mainE scenarioC1).output
        "<details><summary>root-op 100ns</summary><div style=\"margin: 1px 60.000000% 0 10.000000%\"><span>child-op 30ns</span></div>\n</details>" = true) := by
  have hsub : (p.span.endTime - p.span.startTime : Int) ≠ 0 := sub_ne_zero_of_ne hdur
  have hQ : ((p.span.endTime : ℚ) - (p.span.startTime : ℚ)) ≠ 0 := by
    intro h
    apply hsub
    have h' : ((p.span.endTime - p.span.startTime : Int) : ℚ) = 0 := by push_cast; exact h
    exact_mod_cast h'
  refine ⟨⟨?_, ?_, ?_⟩, by decide, by decide⟩
  · simp only [margins, goDivF, if_neg hsub, GoFloat.scale100, GoFloat.toQ, Option.some_inj]
    push_cast
    field_simp
  · simp only [margins, goDivF, if_neg hsub, GoFloat.scale100, GoFloat.toQ, Option.some_inj]
    push_cast
    field_simp
  · push_cast
    field_simp
    ring

/-- The scenario's parent node (span "root-op" with the "child-op" leaf). -/
def c1P : Node := .mk spanRootOp [.mk spanChildOp []]

/-- The scenario's rendered leaf node for "child-op". -/
def c1N : Node := .mk spanChildOp []

/-- Closed instance of C1: the claim applied to the scenario's own
parent/child pair (parent range `[0,100]`, child `[10,40]`). -/
theorem claim_C1_witness :
    c1P.span.endTime ≠ c1P.span.startTime ∧
      ((margins c1P c1N).1.scale100).toQ =
        some (100 * ((c1N.span.startTime - c1P.span.startTime : Int) : ℚ) /
          ((c1P.span.endTime - c1P.span.startTime : Int) : ℚ)) ∧
      ((margins c1P c1N).2.scale100).toQ =
        some (100 * ((c1P.span.endTime - c1N.span.endTime : Int) : ℚ) /
          ((c1P.span.endTime - c1P.span.startTime : Int) : ℚ)) :=
  ⟨by decide, (claim_C1 c1P c1N (by decide)).1.1, (claim_C1 c1P c1N (by decide)).1.2.1⟩

/-- C2: whenever `buildTree` assembles a node whose own recorded start time
equals its end time and whose id has (non-empty) children in the index, the
assembled node's start time is the minimum start time over its assembled
children and its end time is the maximum end time over them; in particular
a zero-duration span with children spanning `[10,20]` and `[15,30]` is
normalized to `[10,30]`. -/
theorem claim_C2 (fuel : Nat) (c : ChildrenIndex) (s : Span) (kids : List Span)
    (hl : lookupA c s.spanID = some kids) (hne : kids ≠ [])
    (hzero : s.startTime = s.endTime) :
    ((buildTree (fuel + 1) c s).span.startTime =
        minStarts (buildTree (fuel + 1) c s).children ∧
      (buildTree (fuel + 1) c s).span.endTime =
        maxEnds (buildTree (fuel + 1) c s).children) ∧
    ((buildTree 2 exC2 exP2).span.startTime = 10 ∧
      (buildTree 2 exC2 exP2).span.endTime = 30) := by
  refine ⟨?_, by decide, by decide⟩
  have hb : buildTree (fuel + 1) c s =
      .mk (normalizeSpan s (sortNodes (kids.map (fun k => buildTree fuel c k))))
        (sortNodes (kids.map (fun k => buildTree fuel c k))) := by
    simp only [buildTree, hl]
  have hne' : sortNodes (kids.map (fun k => buildTree fuel c k)) ≠ [] := by
    intro h
    have hp := sortNodes_perm (kids.map (fun k => buildTree fuel c k))
    rw [h] at hp
    have := hp.symm.length_eq
    simp at this
    exact hne this
  obtain ⟨n0, rest, hs⟩ := List.exists_cons_of_ne_nil hne'
  have hsorted : List.Pairwise leStart (n0 :: rest) := by
    rw [← hs]; exact sortNodes_sorted _
  rw [hb, hs]
  simp only [Node.span, Node.children, normalizeSpan, if_pos hzero]
  exact ⟨(minStarts_of_sorted n0 rest hsorted).symm, (maxEnds_goMax n0 rest).symm⟩

/-- Decoding a stream whose first malformed record sits after `pre` valid
records aborts with the 1-based ordinal of that record (part_000 variant). -/
theorem decodeFrom_error (pre : List Span) :
    ∀ (i : Nat) (sp : SpanIndex) (ch : ChildrenIndex) (e : String) (post : RawInput),
      decodeFrom i sp ch (pre.map Except.ok ++ .error e :: post) =
        .error ("line " ++ toString (i + pre.length) ++ ": " ++ e) := by
  induction pre with
  | nil => intro i sp ch e post; simp [decodeFrom]
  | cons s rest ih =>
      intro i sp ch e post
      simp only [List.map, List.cons_append, decodeFrom, List.append_eq]
      rw [ih]
      have harith : i + 1 + rest.length = i + (rest.length + 1) := by omega
      simp [harith]

/-- Decoding in the main.go variant returns the parse failure unchanged. -/
theorem decodeFromV0_error (pre : List Span) :
    ∀ (sp : SpanIndex) (ch : ChildrenIndex) (e : String) (post : RawInput),
      decodeFromV0 sp ch (pre.map Except.ok ++ .error e :: post) = .error e := by
  induction pre with
  | nil => intro sp ch e post; simp [decodeFromV0]
  | cons s rest ih =>
      intro sp ch e post
      simp only [List.map, List.cons_append, decodeFromV0, List.append_eq]
      exact ih _ _ _ _

/-- The scenario stream: 5 records, the 3rd malformed. -/
def c3Five : RawInput :=
  [.ok spanRootOp, .ok spanChildOp, .error "bad", .ok spanRootOp, .ok spanChildOp]

/-- C3 counterexample: on the malformed-3rd-of-5 scenario the main.go
variant (cited by the claim) aborts with nothing written, but its error is
the bare parse failure, which does not identify the ordinal 3. -/
theorem claim_C3_counterexample :
    (mainEV0 c3Five).output = "" ∧
    (mainEV0 c3Five).res = .error (.goError "bad") ∧
    strHasSub "bad" "3" = false := by
  refine ⟨rfl, by decide, by decide⟩

/-- C3 as amended: in both variants a malformed record aborts the whole run
with an error and nothing written; the part_000 variant's error is
`"line i: e"` for the 1-based ordinal `i` and underlying failure `e`, while
the main.go variant returns `e` unchanged; in particular a malformed 3rd of
5 records yields `"line 3: bad"` and empty output. -/
theorem claim_C3_amended (pre : List Span) (e : String) (post : RawInput) :
    ((mainE (pre.map Except.ok ++ .error e :: post)).output = "" ∧
      (mainE (pre.map Except.ok ++ .error e :: post)).logs = [] ∧
      (mainE (pre.map Except.ok ++ .error e :: post)).res =
        .error ("line " ++ toString (pre.length + 1) ++ ": " ++ e) ∧
      (mainEV0 (pre.map Except.ok ++ .error e :: post)).output = "" ∧
      (mainEV0 (pre.map Except.ok ++ .error e :: post)).res = .error (.goError e)) ∧
    ((mainE c3Five).res = .error ("line 3: bad") ∧ (mainE c3Five).output = "") := by
  have h := decodeFrom_error pre 1 [] [] e post
  have h0 := decodeFromV0_error pre [] [] e post
  have harith : 1 + pre.length = pre.length + 1 := by omega
  rw [harith] at h
  refine ⟨⟨?_, ?_, ?_, ?_, ?_⟩, by decide, rfl⟩
  · simp [mainE, h]
  · simp [mainE, h]
  · simp [mainE, h]
  · simp [mainEV0, h0]
  · simp [mainEV0, h0]

/-- The zero-duration leaf child used by C5. -/
def c5N : Node :=
  .mk { name := "z", spanID := "z", parentID := "p", startTime := 5, endTime := 5 } []

/-- A rendered parent whose (normalized) range still has zero duration. -/
def c5P : Node :=
  .mk { name := "p", spanID := "p", parentID := rootID, startTime := 5, endTime := 5 } [c5N]

/-- C5 counterexample: the division by a zero-duration parent range is not
guarded; the renderer emits `NaN%` (Go float 0/0), not `0%`, for both
margins of the concrete zero-duration parent/child pair. -/
theorem claim_C5_counterexample :
    c5P.span.endTime = c5P.span.startTime ∧
    writeSpan (some c5P) c5N =
      "<div style=\"margin: 1px NaN% 0 NaN%\"><span>z 0s</span></div>\n" ∧
    goFmtF ((margins c5P c5N).1.scale100) = "NaN" ∧
    goFmtF ((margins c5P c5N).2.scale100) = "NaN" ∧
    ("NaN" : String) ≠ "0.000000" := by
  refine ⟨rfl, by decide, by decide, by decide, by decide⟩

/-- C5 as amended: for a zero-duration parent range the division is
unguarded: each pad is NaN (numerator 0) or ±Inf (numerator nonzero), never
a finite value, and the formatted margin reads "NaN", "+Inf" or "-Inf";
rendering still terminates (no crash), interpolating those strings. -/
theorem claim_C5_amended (p n : Node) (h : p.span.endTime = p.span.startTime) :
    ((margins p n).1 = .nan ∨ (margins p n).1 = .inf ∨ (margins p n).1 = .ninf) ∧
    ((margins p n).2 = .nan ∨ (margins p n).2 = .inf ∨ (margins p n).2 = .ninf) ∧
    goFmtF ((margins p n).1.scale100) ∈ (["NaN", "+Inf", "-Inf"] : List String) ∧
    goFmtF ((margins p n).2.scale100) ∈ (["NaN", "+Inf", "-Inf"] : List String) := by
  have htotal : p.span.endTime - p.span.startTime = 0 := sub_eq_zero_of_eq h
  have key : ∀ a : Int, goDivF a (p.span.endTime - p.span.startTime) = .nan ∨
      goDivF a (p.span.endTime - p.span.startTime) = .inf ∨
      goDivF a (p.span.endTime - p.span.startTime) = .ninf := by
    intro a
    rw [goDivF, if_pos htotal]
    by_cases h0 : a = 0
    · simp [h0]
    · by_cases hpos : 0 < a <;> simp [h0, hpos]
  have k1 := key (n.span.startTime - p.span.startTime)
  have k2 := key (p.span.endTime - n.span.endTime)
  have hm : margins p n = (goDivF (n.span.startTime - p.span.startTime)
      (p.span.endTime - p.span.startTime),
      goDivF (p.span.endTime - n.span.endTime)
      (p.span.endTime - p.span.startTime)) := rfl
  rw [hm]
  refine ⟨k1, k2, ?_, ?_⟩
  · rcases k1 with h' | h' | h' <;> rw [h'] <;> simp [GoFloat.scale100, goFmtF]
  · rcases k2 with h' | h' | h' <;> rw [h'] <;> simp [GoFloat.scale100, goFmtF]

/-- Closed instance of C5 (amended) at the concrete zero-duration pair. -/
theorem claim_C5_amended_witness :
    c5P.span.endTime = c5P.span.startTime ∧
    (((margins c5P c5N).1 = .nan ∨ (margins c5P c5N).1 = .inf ∨
        (margins c5P c5N).1 = .ninf) ∧
      ((margins c5P c5N).2 = .nan ∨ (margins c5P c5N).2 = .inf ∨
        (margins c5P c5N).2 = .ninf) ∧
      goFmtF ((margins c5P c5N).1.scale100) ∈ (["NaN", "+Inf", "-Inf"] : List String) ∧
      goFmtF ((margins c5P c5N).2.scale100) ∈ (["NaN", "+Inf", "-Inf"] : List String)) :=
  ⟨rfl, claim_C5_amended c5P c5N rfl⟩

/-- A span whose name carries HTML-significant characters. -/
def c10Evil : Span :=
  { name := "<&evil>", spanID := "e", parentID := "x", startTime := 0, endTime := 7 }

/-- C10: the renderer splices `node.Span.Name` into the emitted HTML
verbatim (`%s`, no escaping): a leaf renders exactly
`<span>NAME DUR</span>` and an internal node exactly
`<details><summary>NAME DUR</summary>…` with NAME unmodified, and a name
containing `<` and `&` appears unchanged in the output. -/
theorem claim_C10 (p : Node) (s : Span) (c : Node) (cs : List Node) :
    writeSpan (some p) (.mk s []) =
      "<div style=\"" ++ ("margin: 1px " ++ goFmtF ((margins p (.mk s [])).2.scale100) ++
        "% 0 " ++ goFmtF ((margins p (.mk s [])).1.scale100) ++ "%") ++ "\">" ++
      ("<span>" ++ s.name ++ " " ++ goDurString (s.endTime - s.startTime) ++ "</span>") ++
      "</div>\n" ∧
    writeSpan (some p) (.mk s (c :: cs)) =
      "<div class=\"parent\" style=\"" ++ ("margin: 1px " ++
        goFmtF ((margins p (.mk s (c :: cs))).2.scale100) ++ "% 0 " ++
        goFmtF ((margins p (.mk s (c :: cs))).1.scale100) ++ "%") ++ "\">" ++
      ("<details><summary>" ++ s.name ++ " " ++ goDurString (s.endTime - s.startTime) ++
        "</summary>" ++ writeSpans (.mk s (c :: cs)) (c :: cs) ++ "</details>") ++
      "</div>\n" ∧
    strHasSub (writeSpan (some c1P) (.mk c10Evil [])) "<span><&evil> 7ns</span>" = true := by
  refine ⟨rfl, rfl, by decide⟩

theorem strAppend_assoc (a b c : String) : a ++ b ++ c = a ++ (b ++ c) := by
  cases a; cases b; cases c
  show String.mk _ = String.mk _
  rw [List.append_assoc]

/-- Any member's image can be split out of a concatenation of images. -/
theorem strConcat_decomp {α : Type} (g : α → String) :
    ∀ (l : List α) (a : α), a ∈ l → ∃ x y, strConcat (l.map g) = x ++ g a ++ y := by
  intro l
  induction l with
  | nil => intro a ha; cases ha
  | cons b bs ih =>
      intro a ha
      rcases List.mem_cons.mp ha with h | h
      · subst h
        exact ⟨"", strConcat (bs.map g), rfl⟩
      · obtain ⟨x, y, hx⟩ := ih a h
        refine ⟨g b ++ x, y, ?_⟩
        simp only [List.map, strConcat, hx, strAppend_assoc]

/-- The orphan record of the C6/C7/C8 scenarios: its parent id "zzz" has no
span record. -/
def spanOrphan : Span :=
  { name := "c", spanID := "c", parentID := "zzz", startTime := 10, endTime := 20 }

/-- C6's counterexample input: a sentinel-rooted span plus the orphan. -/
def c6In : RawInput := [.ok spanRootOp, .ok spanOrphan]

/-- Input with no sentinel-rooted span at all (C7/C8 scenarios). -/
def c7In : RawInput := [.ok spanOrphan]

/-- C6 counterexample: with a root span present and an orphan referencing
the recordless parent id "zzz", the diagnostic is logged but the output
contains no "Missing span" synthetic container at all — the orphan subtree
is dropped, contradicting the claim that the output always contains such a
container. -/
theorem claim_C6_counterexample :
    (mainE c6In).res = .ok () ∧
    ("missing \"zzz\"") ∈ (mainE c6In).logs ∧
    strHasSub (mainE c6In).output "Missing span" = false := by
  refine ⟨rfl, by decide, by decide⟩

/-- C6 as amended: for every decoded input, each parent id with no span
record gets a "missing" diagnostic naming it; the synthetic "Missing span"
container (a placeholder span carrying the missing id as its own id) is
rendered — before the preamble — only when no span claims the sentinel root
id; when a root span exists, orphan subtrees are absent from the output. -/
theorem claim_C6_amended (input : RawInput) (sp : SpanIndex) (ch : ChildrenIndex)
    (hdec : decodeFrom 1 [] [] input = .ok (sp, ch)) :
    (∀ m ∈ missingIds sp ch, ("missing \"" ++ m ++ "\"") ∈ (mainE input).logs) ∧
    (lookupA ch rootID = none → ∀ m ∈ missingIds sp ch,
      ∃ x y, (mainE input).output =
        x ++ writeSpan none (buildTree (input.length + 2) ch (missingSpan m)) ++ y) := by
  cases hroot : lookupA ch rootID with
  | none =>
      constructor
      · intro m hm
        simp only [mainE, hdec, hroot]
        exact List.mem_append_left _ (List.mem_map_of_mem _ hm)
      · intro _ m hm
        obtain ⟨x, y, hx⟩ := strConcat_decomp
          (fun m => writeSpan none (buildTree (input.length + 2) ch (missingSpan m)))
          (missingIds sp ch) m hm
        refine ⟨x, y ++ (header ++ (renderRoot (input.length + 2) ch ++ footer)), ?_⟩
        simp only [mainE, hdec, hroot, orphanBlock, hx, strAppend_assoc]
  | some rs =>
      constructor
      · intro m hm
        simp only [mainE, hdec, hroot]
        exact List.mem_map_of_mem _ hm
      · intro h
        simp at h

/-- Closed instance of C6 (amended) on the no-root orphan input: the
diagnostic for "zzz" is logged and a "Missing span" container for id "zzz"
is rendered somewhere in the output. -/
theorem claim_C6_amended_witness :
    ("missing \"zzz\"") ∈ (mainE c7In).logs ∧
    (∃ x y, (mainE c7In).output =
      x ++ writeSpan none (buildTree 3 [("zzz", [spanOrphan])] (missingSpan "zzz")) ++ y) :=
  ⟨(claim_C6_amended c7In [("c", spanOrphan)] [("zzz", [spanOrphan])] rfl).1 "zzz" (by decide),
   (claim_C6_amended c7In [("c", spanOrphan)] [("zzz", [spanOrphan])] rfl).2 (by decide)
     "zzz" (by decide)⟩

/-- C7 counterexample: on an input with no sentinel-rooted span, the
main.go variant (cited by the claim) fails the run with the error
"no root" and writes nothing, contradicting "the run does not fail". -/
theorem claim_C7_counterexample :
    (mainEV0 c7In).res = .error (.goError "no root") ∧ (mainEV0 c7In).output = "" := by
  refine ⟨by decide, rfl⟩

/-- C7 as amended: in the part_000 variant a no-root input does not fail:
the condition is logged as "no root", and rendering proceeds — the orphan
synthetic subtrees followed by the preamble, an empty top-level "root"
container and the tail; the main.go variant instead returns the error
"no root". -/
theorem claim_C7_amended (input : RawInput) (sp : SpanIndex) (ch : ChildrenIndex)
    (hdec : decodeFrom 1 [] [] input = .ok (sp, ch))
    (hroot : lookupA ch rootID = none) :
    (mainE input).res = .ok () ∧
    ("no root" : String) ∈ (mainE input).logs ∧
    (mainE input).output = orphanBlock (input.length + 2) sp ch ++ header ++
      "<div><span>root 0s</span></div>\n" ++ footer := by
  have hbt : buildTree (input.length + 2) ch rootSpanV = .mk rootSpanV [] := by
    show buildTree (input.length + 1 + 1) ch rootSpanV = _
    simp only [buildTree]
    rw [show lookupA ch rootSpanV.spanID = none from hroot]
  refine ⟨?_, ?_, ?_⟩
  · simp [mainE, hdec, hroot]
  · simp [mainE, hdec, hroot]
  · simp only [mainE, hdec, hroot, renderRoot, hbt]
    rfl

/-- The span/children indexes decoded from `c7In`. -/
def c7Sp : SpanIndex := [("c", spanOrphan)]

def c7Ch : ChildrenIndex := [("zzz", [spanOrphan])]

/-- Closed instance of C7 (amended) on the no-root orphan input. -/
theorem claim_C7_amended_witness :
    (mainE c7In).res = .ok () ∧
    ("no root" : String) ∈ (mainE c7In).logs ∧
    (mainE c7In).output = orphanBlock 3 c7Sp c7Ch ++ header ++
      "<div><span>root 0s</span></div>\n" ++ footer :=
  claim_C7_amended c7In c7Sp c7Ch rfl (by decide)

/-- C8 counterexample: on the no-root orphan input the run succeeds and
renders span content, yet the written stream does not begin with the static
preamble — the synthetic orphan container precedes it. -/
theorem claim_C8_counterexample :
    (mainE c7In).res = .ok () ∧
    (mainE c7In).output ≠ "" ∧
    strHasSub (mainE c7In).output "<span>" = true ∧
    strStarts (mainE c7In).output header = false := by
  refine ⟨rfl, by decide, by decide, by decide⟩

/-- C8 as amended: when at least one span claims the sentinel root id (and
in every successful main.go run), the output is exactly preamble →
top-level container → tail; when none does, the part_000 variant writes the
synthetic orphan containers before the preamble, then the preamble, an
empty root container and the tail. -/
theorem claim_C8_amended (input : RawInput) (sp : SpanIndex) (ch : ChildrenIndex)
    (hdec : decodeFrom 1 [] [] input = .ok (sp, ch)) :
    (∀ rs, lookupA ch rootID = some rs →
      (mainE input).output = header ++ renderRoot (input.length + 2) ch ++ footer) ∧
    (lookupA ch rootID = none →
      (mainE input).output = orphanBlock (input.length + 2) sp ch ++ header ++
        renderRoot (input.length + 2) ch ++ footer) ∧
    ((mainEV0 input).res = .ok () →
      ∃ mid, (mainEV0 input).output = header ++ mid ++ footer) := by
  refine ⟨?_, ?_, ?_⟩
  · intro rs hroot
    simp [mainE, hdec, hroot]
  · intro hroot
    simp [mainE, hdec, hroot]
  · intro hok
    cases hdv0 : decodeFromV0 [] [] input with
    | error e => simp [mainEV0, hdv0] at hok
    | ok pr =>
        obtain ⟨sp0, ch0⟩ := pr
        cases hr0 : lookupA ch0 rootID with
        | none => simp [mainEV0, hdv0, hr0] at hok
        | some rs =>
            match rs with
            | [] => simp [mainEV0, hdv0, hr0] at hok
            | [r] =>
                refine ⟨writeSpanV0 none (buildTreeV0 (input.length + 2) ch0 r), ?_⟩
                simp [mainEV0, hdv0, hr0]
            | r1 :: r2 :: rest => simp [mainEV0, hdv0, hr0] at hok

/-- The span/children indexes decoded from the two-span scenario input. -/
def scenSp : SpanIndex := [("a", spanRootOp), ("b", spanChildOp)]

def scenCh : ChildrenIndex := [(rootID, [spanRootOp]), ("a", [spanChildOp])]

/-- Closed instance of C8 (amended): on the two-span scenario the output is
exactly preamble, top-level container, tail. -/
theorem claim_C8_amended_witness :
    (mainE scenarioC1).output = header ++ renderRoot 4 scenCh ++ footer :=
  (claim_C8_amended scenarioC1 scenSp scenCh rfl).1 [spanRootOp] (by decide)

/-! ### re-running assembly (C9)

`buildTree` mutates the spans it normalizes through shared pointers, so a
second assembly run starts from the normalized root span and sees the
normalized spans in the children index.  `finalSpan` is the value a span
holds after assembly; `rebuiltIndex` is the children index with every
stored span replaced by its post-assembly value. -/

/-- The value a span holds after an assembly pass rooted at it. -/
def finalSpan (fuel : Nat) (c : ChildrenIndex) (s : Span) : Span :=
  (buildTree fuel c s).span

/-- The children index as it stands after assembly normalized its spans. -/
def rebuiltIndex (fuel : Nat) (c : ChildrenIndex) : ChildrenIndex :=
  c.map (fun kv => (kv.1, kv.2.map (finalSpan fuel c)))

theorem normalizeSpan_spanID (s : Span) (l : List Node) :
    (normalizeSpan s l).spanID = s.spanID := by
  rw [normalizeSpan.eq_def]
  split
  · cases l <;> rfl
  · rfl

theorem normalizeSpan_idem (s : Span) (l : List Node) :
    normalizeSpan (normalizeSpan s l) l = normalizeSpan s l := by
  by_cases h : s.startTime = s.endTime
  · cases l with
    | nil => simp [normalizeSpan, h]
    | cons n0 rest =>
        have hin : normalizeSpan s (n0 :: rest) =
            { s with startTime := n0.span.startTime
                     endTime := (goMaxFuncAux n0 rest).span.endTime } := by
          simp [normalizeSpan, h]
        rw [hin, normalizeSpan.eq_def]
        split
        · rfl
        · rfl
  · simp [normalizeSpan, h]

theorem lookupA_map {α β : Type} (g : α → β) :
    ∀ (c : List (String × α)) (k : String),
      lookupA (c.map (fun kv => (kv.1, g kv.2))) k = (lookupA c k).map g := by
  intro c
  induction c with
  | nil => intro k; rfl
  | cons kv rest ih =>
      intro k
      obtain ⟨key, l⟩ := kv
      simp only [List.map, lookupA]
      by_cases hk : key = k
      · simp [hk]
      · simp only [if_neg hk]
        exact ih k

theorem lookupA_rebuilt (F : Nat) (c : ChildrenIndex) (k : String) :
    lookupA (rebuiltIndex F c) k =
      (lookupA c k).map (fun l => l.map (finalSpan F c)) := by
  have h := lookupA_map (fun l : List Span => l.map (finalSpan F c)) c k
  simpa [rebuiltIndex] using h

theorem buildTree_mono : ∀ (f g : Nat) (c : ChildrenIndex) (s : Span),
    okFuelB f c s = true → f ≤ g → buildTree g c s = buildTree f c s := by
  intro f
  induction f with
  | zero => intro g c s hok _; simp [okFuelB] at hok
  | succ f ih =>
      intro g c s hok hle
      obtain ⟨g', rfl⟩ : ∃ g', g = g' + 1 := ⟨g - 1, by omega⟩
      have hle' : f ≤ g' := by omega
      cases h : lookupA c s.spanID with
      | none =>
          have hb1 : buildTree (g' + 1) c s = .mk s [] := by simp [buildTree, h]
          have hb2 : buildTree (f + 1) c s = .mk s [] := by simp [buildTree, h]
          rw [hb1, hb2]
      | some kids =>
          simp only [okFuelB, h, List.all_eq_true] at hok
          have hmap : kids.map (fun k => buildTree g' c k) =
              kids.map (fun k => buildTree f c k) :=
            List.map_congr_left (fun k hk => ih g' c k (by simpa using hok k hk) hle')
          have hb1 : buildTree (g' + 1) c s =
              .mk (normalizeSpan s (sortNodes (kids.map (fun k => buildTree g' c k))))
                (sortNodes (kids.map (fun k => buildTree g' c k))) := by
            simp only [buildTree, h]
          have hb2 : buildTree (f + 1) c s =
              .mk (normalizeSpan s (sortNodes (kids.map (fun k => buildTree f c k))))
                (sortNodes (kids.map (fun k => buildTree f c k))) := by
            simp only [buildTree, h]
          rw [hb1, hb2, hmap]

/-- Re-running assembly from the post-assembly root span over the original
children index reproduces the tree. -/
theorem buildTree_rerun (f : Nat) (c : ChildrenIndex) (s : Span)
    (hok : okFuelB f c s = true) :
    buildTree f c ((buildTree f c s).span) = buildTree f c s := by
  cases f with
  | zero => simp [okFuelB] at hok
  | succ f =>
      cases h : lookupA c s.spanID with
      | none =>
          have hb : buildTree (f + 1) c s = .mk s [] := by simp [buildTree, h]
          rw [hb]
          simp only [Node.span]
          exact hb
      | some kids =>
          have hb : buildTree (f + 1) c s =
              .mk (normalizeSpan s (sortNodes (kids.map (fun k => buildTree f c k))))
                (sortNodes (kids.map (fun k => buildTree f c k))) := by
            simp only [buildTree, h]
          rw [hb]
          simp only [Node.span]
          have hid : lookupA c
              (normalizeSpan s (sortNodes (kids.map (fun k => buildTree f c k)))).spanID =
              some kids := by rw [normalizeSpan_spanID]; exact h
          simp only [buildTree, hid, normalizeSpan_idem]

/-- Re-running assembly from the post-assembly root span over the
post-assembly children index also reproduces the tree. -/
theorem buildTree_rerun_rebuilt : ∀ (f F : Nat) (c : ChildrenIndex) (s : Span),
    f ≤ F → okFuelB f c s = true →
    buildTree f (rebuiltIndex F c) ((buildTree f c s).span) = buildTree f c s := by
  intro f
  induction f with
  | zero => intro F c s _ hok; simp [okFuelB] at hok
  | succ f ih =>
      intro F c s hle hok
      cases h : lookupA c s.spanID with
      | none =>
          have hb : buildTree (f + 1) c s = .mk s [] := by simp [buildTree, h]
          rw [hb]
          simp only [Node.span]
          have hr : lookupA (rebuiltIndex F c) s.spanID = none := by
            rw [lookupA_rebuilt, h]; rfl
          simp [buildTree, hr]
      | some kids =>
          have hkall : ∀ k ∈ kids, okFuelB f c k = true := by
            simp only [okFuelB, h, List.all_eq_true] at hok
            intro k hk
            simpa using hok k hk
          have hb : buildTree (f + 1) c s =
              .mk (normalizeSpan s (sortNodes (kids.map (fun k => buildTree f c k))))
                (sortNodes (kids.map (fun k => buildTree f c k))) := by
            simp only [buildTree, h]
          rw [hb]
          simp only [Node.span]
          have hid : lookupA (rebuiltIndex F c)
              (normalizeSpan s (sortNodes (kids.map (fun k => buildTree f c k)))).spanID =
              some (kids.map (finalSpan F c)) := by
            rw [normalizeSpan_spanID, lookupA_rebuilt, h]; rfl
          have hns : (kids.map (finalSpan F c)).map
              (fun k => buildTree f (rebuiltIndex F c) k) =
              kids.map (fun k => buildTree f c k) := by
            rw [List.map_map]
            apply List.map_congr_left
            intro k hk
            show buildTree f (rebuiltIndex F c) (finalSpan F c k) = buildTree f c k
            rw [finalSpan, buildTree_mono f F c k (hkall k hk) (by omega)]
            exact ih F c k (by omega) (hkall k hk)
          simp only [buildTree, hid, hns, normalizeSpan_idem]

/-- C9: assembly is idempotent.  Running `buildTree` a second time — from
the root span as assembly left it, over either the original children index
or the children index holding the post-assembly (normalized) spans —
produces a tree identical in structure and child ordering to the first
run's tree, whenever the fuel covers the recursion (always, for acyclic
input). -/
theorem claim_C9 (f : Nat) (c : ChildrenIndex) (s : Span)
    (hok : okFuelB f c s = true) :
    buildTree f c ((buildTree f c s).span) = buildTree f c s ∧
    buildTree f (rebuiltIndex f c) ((buildTree f c s).span) = buildTree f c s :=
  ⟨buildTree_rerun f c s hok, buildTree_rerun_rebuilt f f c s le_rfl hok⟩

/-- Closed instance of C9 on the zero-duration grouping example. -/
theorem claim_C9_witness :
    okFuelB 2 exC2 exP2 = true ∧
    (buildTree 2 exC2 ((buildTree 2 exC2 exP2).span) = buildTree 2 exC2 exP2 ∧
      buildTree 2 (rebuiltIndex 2 exC2) ((buildTree 2 exC2 exP2).span) =
        buildTree 2 exC2 exP2) :=
  ⟨by decide, claim_C9 2 exC2 exP2 (by decide)⟩

/-! ### the library sort's guarantee (C4)

`sortNodes` above fixes one sorted order (the library's exact behavior for
up to 12 elements).  The full guarantee `golang.org/x/exp/slices.SortFunc`
gives for the call at part_000:121-123 (and main.go:83-85) is only captured
relationally: the output is a permutation of the input, non-decreasing
under the comparison — the library documents that the sort is *not*
guaranteed to be stable, so the relative order of equal elements is
unspecified (pdqsort, used for slices longer than 12, does reorder them,
e.g. through its whole-slice reversal of decreasing runs). -/

/-- Everything the library guarantees about `slices.SortFunc cmpStart`. -/
def SortFuncContract (input output : List Node) : Prop :=
  List.Pairwise leStart output ∧ output.Perm input

/-- The tree-assembly relation: `buildTree` with the sort replaced by its
library contract, so that it admits every child order the library may
produce.  It mirrors `buildTree` clause by clause (lookup miss gives a leaf;
a hit builds one node per child span, a sorted permutation of them, and the
zero-duration normalization). -/
inductive BuildTreeRel (c : ChildrenIndex) : Span → Node → Prop where
  | leaf (s : Span) : lookupA c s.spanID = none → BuildTreeRel c s (.mk s [])
  | node (s : Span) (kids : List Span) (ns sorted : List Node) :
      lookupA c s.spanID = some kids →
      kids.length = ns.length →
      (∀ p ∈ kids.zip ns, BuildTreeRel c p.1 p.2) →
      SortFuncContract ns sorted →
      BuildTreeRel c s (.mk (normalizeSpan s sorted) sorted)

/-- Every node of the tree has its children sorted by start time. -/
inductive SortedTreeInv : Node → Prop where
  | mk (s : Span) (ch : List Node) :
      List.Pairwise leStart ch →
      (∀ n ∈ ch, SortedTreeInv n) →
      SortedTreeInv (.mk s ch)

theorem zip_map_pair {α β : Type} (f : α → β) :
    ∀ (l : List α) (p : α × β), p ∈ l.zip (l.map f) → p.2 = f p.1 := by
  intro l
  induction l with
  | nil => intro p hp; cases hp
  | cons a rest ih =>
      intro p hp
      rcases List.mem_cons.mp hp with h | h
      · rw [h]
      · exact ih p h

/-- The deterministic model `buildTree` realizes one behavior the library
contract admits. -/
theorem buildTreeRel_of_buildTree : ∀ (f : Nat) (c : ChildrenIndex) (s : Span),
    okFuelB f c s = true → BuildTreeRel c s (buildTree f c s) := by
  intro f
  induction f with
  | zero => intro c s hok; simp [okFuelB] at hok
  | succ f ih =>
      intro c s hok
      cases h : lookupA c s.spanID with
      | none =>
          have hb : buildTree (f + 1) c s = .mk s [] := by simp [buildTree, h]
          rw [hb]
          exact .leaf s h
      | some kids =>
          have hkall : ∀ k ∈ kids, okFuelB f c k = true := by
            simp only [okFuelB, h, List.all_eq_true] at hok
            intro k hk
            simpa using hok k hk
          have hb : buildTree (f + 1) c s =
              .mk (normalizeSpan s (sortNodes (kids.map (fun k => buildTree f c k))))
                (sortNodes (kids.map (fun k => buildTree f c k))) := by
            simp only [buildTree, h]
          rw [hb]
          refine BuildTreeRel.node s kids (kids.map (fun k => buildTree f c k)) _ h
            (by simp) ?_ ⟨sortNodes_sorted _, sortNodes_perm _⟩
          intro p hp
          have hsnd := zip_map_pair (fun k => buildTree f c k) kids p hp
          have hfst : p.1 ∈ kids := (List.of_mem_zip hp).1
          rw [hsnd]
          exact ih c p.1 (hkall p.1 hfst)

/-- C4 as amended: for every tree the assembly may produce (any behavior of
the unstable library sort), every node's children are sorted by `startTime`
ascending; the relative order of children with equal start times is
unspecified (the claim's stable tie-breaking is not guaranteed, see the
counterexample). -/
theorem claim_C4_amended (c : ChildrenIndex) (s : Span) (t : Node)
    (h : BuildTreeRel c s t) : SortedTreeInv t := by
  induction h with
  | leaf s hl =>
      exact SortedTreeInv.mk s [] List.Pairwise.nil (fun n hn => absurd hn (by simp))
  | node s kids ns sorted hl hlen hrel hsort ih =>
      refine SortedTreeInv.mk _ _ hsort.1 ?_
      intro n hn
      have hmem : n ∈ ns := hsort.2.mem_iff.mp hn
      have hmap : (kids.zip ns).map Prod.snd = ns :=
        List.map_snd_zip kids ns (le_of_eq hlen.symm)
      rw [← hmap] at hmem
      obtain ⟨p, hp, hpn⟩ := List.mem_map.mp hmem
      rw [← hpn]
      exact ih p hp

/-- Closed instance of C4 (amended): the functional model's tree on the C2
example is an admitted behavior and satisfies the sortedness invariant. -/
theorem claim_C4_amended_witness :
    okFuelB 2 exC2 exP2 = true ∧ SortedTreeInv (buildTree 2 exC2 exP2) :=
  ⟨by decide, claim_C4_amended exC2 exP2 (buildTree 2 exC2 exP2)
    (buildTreeRel_of_buildTree 2 exC2 exP2 (by decide))⟩

/-- Start times of the C4 counterexample children: strictly decreasing by
arrival, except that the 4th arrival repeats the 3rd's start time (an
adjacent tie away from pdqsort's ninther sampling positions, so the real
library reverses the whole 50-element slice, inverting the tie). -/
def c4Start (i : Nat) : Int := if i = 3 then 47 else 49 - (i : Int)

def c4Kid (i : Nat) : Span :=
  { name := "k" ++ toString i, spanID := "k" ++ toString i, parentID := "p50",
    startTime := c4Start i, endTime := c4Start i + 1 }

/-- 50 children in arrival order. -/
def c4Kids : List Span := (List.range 50).map c4Kid

def c4C : ChildrenIndex := [("p50", c4Kids)]

def c4S : Span :=
  { name := "p", spanID := "p50", parentID := rootID, startTime := 0, endTime := 100 }

/-- The children as nodes, in arrival order. -/
def c4NS : List Node := c4Kids.map (fun k => .mk k [])

/-- The assembled tree whose children are the full reversal of the arrival
order — a sorted permutation the library can produce on this input. -/
def c4Bad : Node := .mk c4S c4NS.reverse

/-- C4's tie-breaking property at a node, as the claim states it: children
with equal start times appear in the order their spans arrived (positions
of their ids in the arrival sequence are non-decreasing). -/
def tiesInOrder (kids : List Span) (ch : List Node) : Prop :=
  List.Pairwise (fun a b => a.span.startTime = b.span.startTime →
    (kids.map Span.spanID).indexOf a.span.spanID ≤
      (kids.map Span.spanID).indexOf b.span.spanID) ch

theorem allLeavesRel (c : ChildrenIndex) (l : List Span)
    (hl : ∀ k ∈ l, lookupA c k.spanID = none) :
    ∀ p ∈ l.zip (l.map (fun k => Node.mk k [])), BuildTreeRel c p.1 p.2 := by
  intro p hp
  have hsnd := zip_map_pair (fun k => Node.mk k []) l p hp
  have hfst : p.1 ∈ l := (List.of_mem_zip hp).1
  rw [hsnd]
  exact .leaf p.1 (hl p.1 hfst)

/-- C4 counterexample: the assembly relation (the code's guarantee, since
`slices.SortFunc` is not guaranteed stable) admits a tree for the 50-child
input whose children are sorted by start time but whose two equal-start
children appear in reversed arrival order — so the claim's stable
tie-breaking is false of the code. -/
theorem claim_C4_counterexample :
    BuildTreeRel c4C c4S c4Bad ∧
    List.Pairwise leStart c4Bad.children ∧
    ¬ tiesInOrder c4Kids c4Bad.children := by
  refine ⟨?_, by decide, ?_⟩
  · have hnorm : normalizeSpan c4S c4NS.reverse = c4S := by
      rw [normalizeSpan.eq_def]
      simp [c4S]
    have h : BuildTreeRel c4C c4S (.mk (normalizeSpan c4S c4NS.reverse) c4NS.reverse) :=
      BuildTreeRel.node c4S c4Kids c4NS c4NS.reverse (by decide)
        (by simp [c4NS]) (allLeavesRel c4C c4Kids (by decide))
        ⟨by decide, List.reverse_perm c4NS⟩
    rw [hnorm] at h
    exact h
  · intro hties
    have hpair := List.pairwise_iff_get.mp hties ⟨46, by decide⟩ ⟨47, by decide⟩ (by decide)
    exact absurd (hpair (by decide)) (by decide)

/-- Closed instance of C2 at the `[10,20]`/`[15,30]` example. -/
theorem claim_C2_witness :
    (lookupA exC2 exP2.spanID = some exKids2 ∧ exKids2 ≠ [] ∧
      exP2.startTime = exP2.endTime) ∧
    (((buildTree 2 exC2 exP2).span.startTime =
        minStarts (buildTree 2 exC2 exP2).children ∧
      (buildTree 2 exC2 exP2).span.endTime =
        maxEnds (buildTree 2 exC2 exP2).children) ∧
    ((buildTree 2 exC2 exP2).span.startTime = 10 ∧
      (buildTree 2 exC2 exP2).span.endTime = 30)) :=
  ⟨⟨by decide, by decide, by decide⟩,
   claim_C2 1 exC2 exP2 exKids2 (by decide) (by decide) (by decide)⟩

end Trot
